import Mathlib

/-!
Shallow embedding of `src/daily_wx.py` (daily weather report batch job).

Modelling conventions:
* Python strings are Lean `String`s; where character-level processing matters
  (`str.strip`, `str.split`, suffix matching) we work on `String.data : List Char`.
* `TODAY = datetime.datetime.today()` is modelled by its calendar date, as a day
  number (days since 1970-01-01, negative allowed); `datetime.timedelta(days=x)`
  subtraction is integer subtraction on day numbers, and `strftime('%Y%m%d')`
  goes through a Gregorian civil-from-days conversion (Hinnant's algorithm,
  the standard proleptic-Gregorian conversion `datetime.date` implements).
* The filesystem is explicit data: the cache directory is the list of names of
  the files under `data/` (`DATA_DIR.glob` with pattern `**/*{model}{filetype}`
  keeps exactly the file names ending in `model ++ filetype`).
* HTTP is an oracle `fetch : String → HttpResponse`; a run of the download loop
  is summarised by a `Trace` (GET requests issued in order, files written with
  their bytes, and the HTTP error raised, if any).  `requests`' own
  `Response.raise_for_status` raises `HTTPError` exactly for status codes in
  `[400, 600)`; statuses outside that range raise nothing.
* The Slack client is an oracle `upload : String → UploadResp`; message posting
  is modelled by the block list it would send, `Except` capturing a raised
  `KeyError`.
-/

deriving instance DecidableEq for Except

namespace DailyWx

/-- Constant `BASE_URL` from the module constants. -/
def BASE_URL : String := "https://weather.ral.ucar.edu"

/-! ### Date arithmetic and formatting -/

/-- Left-pad a numeral with zeros to width 2 (CPython `strftime` zero-pads
`%m`/`%d` to two digits). -/
def pad2 (n : Nat) : String :=
  if n < 10 then "0" ++ toString n else toString n

/-- Left-pad a numeral with zeros to width 4 (CPython `strftime` zero-pads
`%Y` to four digits). -/
def pad4 (n : Nat) : String :=
  if n < 10 then "000" ++ toString n
  else if n < 100 then "00" ++ toString n
  else if n < 1000 then "0" ++ toString n
  else toString n

/-- Gregorian civil date `(year, month, day)` of a day number (days since
1970-01-01). Hinnant's `civil_from_days`; `datetime.date.fromordinal` agrees
with it on the proleptic Gregorian calendar. Day numbers in this model stay in
the positive-year range, where the `Int.toNat` casts are exact. -/
def civilFromDays (z0 : Int) : Nat × Nat × Nat :=
  let z := z0 + 719468
  let era := (if 0 ≤ z then z else z - 146096) / 146097
  let doe := z - era * 146097
  let yoe := (doe - doe / 1460 + doe / 36524 - doe / 146096) / 365
  let y := yoe + era * 400
  let doy := doe - (365 * yoe + yoe / 4 - yoe / 100)
  let mp := (5 * doy + 2) / 153
  let d := doy - (153 * mp + 2) / 5 + 1
  let m := mp + (if mp < 10 then 3 else -9)
  ((y + (if m ≤ 2 then 1 else 0)).toNat, m.toNat, d.toNat)

/-- Format `strftime('%Y%m%d')` on a civil date: compact, zero-padded. -/
def fmtYYYYMMDD (ymd : Nat × Nat × Nat) : String :=
  pad4 ymd.1 ++ pad2 ymd.2.1 ++ pad2 ymd.2.2

/-- Python `range(n, 0, -1)`: the list `[n, n-1, ..., 1]`. -/
def pyRangeDown : Nat → List Nat
  | 0 => []
  | n + 1 => (n + 1) :: pyRangeDown n

/-- The day numbers scanned by `retrieve_imgs`:
`[(TODAY - datetime.timedelta(days=x)) for x in range(span_days, 0, -1)]`. -/
def windowDays (today : Int) (spanDays : Nat) : List Int :=
  (pyRangeDown spanDays).map (fun x => today - (x : Int))

/-- List `dates_str` of `retrieve_imgs`: the window days formatted `%Y%m%d`. -/
def dates_str (today : Int) (spanDays : Nat) : List String :=
  (windowDays today spanDays).map (fun z => fmtYYYYMMDD (civilFromDays z))

/-! ### retrieve_imgs -/

/-- Filename `f'{dt}_{tod}0000_{model}{filetype}'` — the remote filename, also used as
the local cache key. -/
def mkFilename (dt tod model filetype : String) : String :=
  dt ++ "_" ++ tod ++ "0000_" ++ model ++ filetype

/-- Url `f'{BASE_URL}/data/upper/{dt}/{filename}'` — the remote URL. -/
def mkUrl (dt filename : String) : String :=
  BASE_URL ++ "/data/upper/" ++ dt ++ "/" ++ filename

/-- The cache scan
`[x.name for x in DATA_DIR.glob(f'**/*{model}{filetype}') if x.is_file()]`:
of the file names under `data/`, those ending in `model ++ filetype`
(glob pattern `*suffix` on a name means exactly that suffix match). -/
def knownFilenames (model filetype : String) (cache : List String) : List String :=
  cache.filter (fun x => (model ++ filetype).data.isSuffixOf x.data)

/-- The two fixed run-time markers, `['00', '12']`. -/
def runTimes : List String := ["00", "12"]

/-- Queue `url_dict` of `retrieve_imgs`, as an insertion-ordered association list:
for each date of the window and each run time, the canonical filename, skipped
when already present in the cache scan, otherwise queued with its URL. -/
def urlDict (model filetype : String) (filenames : List String)
    (datesStr : List String) : List (String × String) :=
  datesStr.flatMap (fun dt =>
    runTimes.flatMap (fun tod =>
      if mkFilename dt tod model filetype ∈ filenames then []
      else [(mkFilename dt tod model filetype,
             mkUrl dt (mkFilename dt tod model filetype))]))

/-- An HTTP response: status code and body bytes. -/
structure HttpResponse where
  statusCode : Nat
  content : List Nat
  deriving DecidableEq

/-- Observable effects of one run of the download loop: GET requests issued in
order, `(path, bytes)` file writes in order, and the status of the `HTTPError`
raised by `raise_for_status`, if any. -/
structure Trace where
  requests : List String
  writes : List (String × List Nat)
  httpError : Option Nat
  deriving DecidableEq

/-- Path `DATA_DIR.joinpath(f'{model}/{filename}')` as a path string. -/
def cachePath (model filename : String) : String :=
  "data/" ++ model ++ "/" ++ filename

/-- The download loop of `retrieve_imgs` over the queued `(filename, url)`
pairs: GET each url; on status 200 write the body to the cache path and sleep;
otherwise log a warning and call `resp.raise_for_status()`, which raises (and
aborts the loop) exactly when the status is in `[400, 600)` and is a no-op for
any other status, after which the loop continues with the next pair. -/
def runDownloads (fetch : String → HttpResponse) (model : String) :
    List (String × String) → Trace
  | [] => ⟨[], [], none⟩
  | (filename, url) :: rest =>
    let resp := fetch url
    if resp.statusCode = 200 then
      let t := runDownloads fetch model rest
      ⟨url :: t.requests, (cachePath model filename, resp.content) :: t.writes, t.httpError⟩
    else if 400 ≤ resp.statusCode ∧ resp.statusCode < 600 then
      ⟨[url], [], some resp.statusCode⟩
    else
      let t := runDownloads fetch model rest
      ⟨url :: t.requests, t.writes, t.httpError⟩

/-- Function `retrieve_imgs(model, filetype, span_days)`: build the date window, scan
the cache, queue the missing filenames, download them. -/
def retrieve_imgs (fetch : String → HttpResponse) (cache : List String)
    (model filetype : String) (today : Int) (spanDays : Nat) : Trace :=
  let filenames := knownFilenames model filetype cache
  runDownloads fetch model (urlDict model filetype filenames (dates_str today spanDays))

/-! ### build_gif -/

/-- Format `strftime('%F')` (= `%Y-%m-%d`) on a civil date. -/
def fmtISO (ymd : Nat × Nat × Nat) : String :=
  pad4 ymd.1 ++ "-" ++ pad2 ymd.2.1 ++ "-" ++ pad2 ymd.2.2

/-- Path `DATA_DIR.joinpath(f'gifs/{model}_{TODAY:%F}.gif')` as a path string. -/
def gifPath (model : String) (today : Int) : String :=
  "data/gifs/" ++ model ++ "_" ++ fmtISO (civilFromDays today) ++ ".gif"

/-- Lexicographic comparison of character lists by code point, with the
shorter-is-smaller rule on exhaustion: the order Python uses to compare
strings. -/
def lexLe : List Char → List Char → Bool
  | [], _ => true
  | _ :: _, [] => false
  | a :: as, b :: bs =>
    if a.toNat < b.toNat then true
    else if b.toNat < a.toNat then false
    else lexLe as bs

/-- Python's string ordering, as a relation on path strings. -/
def pathLe (a b : String) : Prop := lexLe a.data b.data = true

instance : DecidableRel pathLe := fun a b =>
  inferInstanceAs (Decidable (lexLe a.data b.data = true))

instance : IsTotal String pathLe where
  total a b := by
    suffices h : ∀ as bs : List Char, lexLe as bs = true ∨ lexLe bs as = true from
      h a.data b.data
    intro as
    induction as with
    | nil => intro bs; left; rfl
    | cons a as ih =>
      intro bs
      cases bs with
      | nil => right; rfl
      | cons b bs =>
        by_cases h1 : a.toNat < b.toNat
        · left; simp [lexLe, h1]
        · by_cases h2 : b.toNat < a.toNat
          · right; simp [lexLe, h2]
          · rcases ih bs with h | h
            · left; simp [lexLe, h1, h2, h]
            · right; simp [lexLe, h1, h2, h]

instance : IsTrans String pathLe where
  trans a b c hab hbc := by
    unfold pathLe at hab hbc ⊢
    suffices h : ∀ as bs cs : List Char,
        lexLe as bs = true → lexLe bs cs = true → lexLe as cs = true from
      h a.data b.data c.data hab hbc
    intro as
    induction as with
    | nil => intro bs cs _ _; rfl
    | cons a as ih =>
      intro bs cs hab hbc
      cases bs with
      | nil => simp [lexLe] at hab
      | cons b bs =>
        cases cs with
        | nil => simp [lexLe] at hbc
        | cons c cs =>
          by_cases h1 : a.toNat < b.toNat
          · by_cases h2 : b.toNat < c.toNat
            · have h3 : a.toNat < c.toNat := Nat.lt_trans h1 h2
              simp [lexLe, h3]
            · by_cases h3 : c.toNat < b.toNat
              · simp [lexLe, h2, h3] at hbc
              · have h4 : a.toNat < c.toNat := by omega
                simp [lexLe, h4]
          · by_cases h2 : b.toNat < a.toNat
            · simp [lexLe, h1, h2] at hab
            · by_cases h3 : b.toNat < c.toNat
              · have h4 : a.toNat < c.toNat := by omega
                simp [lexLe, h4]
              · by_cases h4 : c.toNat < b.toNat
                · simp [lexLe, h3, h4] at hbc
                · have h5 : ¬ a.toNat < c.toNat := by omega
                  have h6 : ¬ c.toNat < a.toNat := by omega
                  simp only [lexLe, h1, h2, if_false] at hab
                  simp only [lexLe, h3, h4, if_false] at hbc
                  simp only [lexLe, h5, h6, if_false]
                  exact ih bs cs hab hbc

/-- Python `sorted` on the paths of a flat directory: lexical order on the
path strings. -/
def sortedPaths (files : List String) : List String :=
  List.insertionSort pathLe files

/-- The animation written by `img.save(..., format='GIF', append_images=imgs,
save_all=True, duration=300, loop=3)`: output path, frame sequence, per-frame
duration and loop count. -/
structure GifArtifact where
  path : String
  frames : List String
  duration : Nat
  loopCount : Nat
  deriving DecidableEq

/-- Function `build_gif(model)`: sort the entries of the model's cache subdirectory
(`files`, as created by `retrieve_imgs`: a flat list of file paths), take the
first as the base image — `next(imgs)` raises `StopIteration` when there is
none — and append the rest; nothing is written in the error case. -/
def build_gif (files : List String) (model : String) (today : Int) :
    Except String GifArtifact :=
  match sortedPaths files with
  | [] => .error "StopIteration"
  | f :: rest => .ok ⟨gifPath model today, f :: rest, 300, 3⟩

/-! ### send_slack_message_blocks -/

/-- One `model_map` entry: `{'name': ..., 'filetype': ...}`, to which the
upload loop may add `'gif-file-id'`. -/
structure ModelInfo where
  name : String
  filetype : String
  gifFileId : Option String
  deriving DecidableEq

/-- Response data of `files_upload_v2`: an ok flag and the uploaded file id. -/
structure UploadResp where
  ok : Bool
  fileId : String

/-- Python `str.split(sep)` for a one-character separator. -/
def pySplitAux (sep : Char) : List Char → List Char → List (List Char)
  | [], acc => [acc.reverse]
  | c :: cs, acc =>
    if c = sep then acc.reverse :: pySplitAux sep cs []
    else pySplitAux sep cs (c :: acc)

/-- Python `str.split(sep)` for a one-character separator. -/
def pySplit (sep : Char) (s : List Char) : List (List Char) :=
  pySplitAux sep s []

/-- Python `sep.join(parts)`. -/
def pyJoin (sep : List Char) : List (List Char) → List Char
  | [] => []
  | [x] => x
  | x :: xs => x ++ sep ++ pyJoin sep xs

/-- Expression `'_'.join(gif.name.split('_')[:-1])`: the model name owning a gif file —
every `_`-token of the name except the trailing date segment. -/
def mnameOfGif (gifName : String) : String :=
  ⟨pyJoin ['_'] ((pySplit '_' gifName.data).dropLast)⟩

/-- Python dict read `model_map[mname]`: the first (only) entry with that
key, if any. -/
def lookupKey : List (String × ModelInfo) → String → Option ModelInfo
  | [], _ => none
  | (k, info) :: rest, m => if k = m then some info else lookupKey rest m

/-- Python dict write `model_map[mname]['gif-file-id'] = fid` when `mname` is
present: update the matching entry in place. -/
def setFileId : List (String × ModelInfo) → String → String → List (String × ModelInfo)
  | [], _, _ => []
  | (k, info) :: rest, m, fid =>
    if k = m then (k, ⟨info.name, info.filetype, some fid⟩) :: rest
    else (k, info) :: setFileId rest m fid

/-- The upload loop of `send_slack_message_blocks`: for each gif file of
today, derive the owning model name, upload the bytes, and on an `ok` response
store the returned file id into the model's `model_map` entry (a `KeyError`
is raised if the name is not a key of `model_map`); on a non-`ok` response
log a warning and continue with the next gif. -/
def uploadLoop (upload : String → UploadResp) :
    List String → List (String × ModelInfo) → Except String (List (String × ModelInfo))
  | [], modelMap => .ok modelMap
  | gif :: rest, modelMap =>
    let mname := mnameOfGif gif
    let resp := upload gif
    if resp.ok then
      match lookupKey modelMap mname with
      | none => .error ("KeyError: " ++ mname)
      | some _ => uploadLoop upload rest (setFileId modelMap mname resp.fileId)
    else
      uploadLoop upload rest modelMap

/-- A Slack message content block, as composed by
`send_slack_message_blocks`. -/
inductive Block where
  | header (text : String)
  | image (title : String) (fileId : String) (altText : String)
  | divider
  deriving DecidableEq

/-- The header text `f"WX Report for {TODAY:%F}"`. -/
def headerText (today : Int) : String :=
  "WX Report for " ++ fmtISO (civilFromDays today)

/-- The per-model blocks: for each `model_map` entry in iteration order, one
image block titled by the entry's `'name'` and referencing
`model_dict['gif-file-id']` by id (a `KeyError` is raised when that key was
never stored), then one divider block. -/
def blocksForModels : List (String × ModelInfo) → Except String (List Block)
  | [] => .ok []
  | (_, info) :: rest =>
    match info.gifFileId with
    | none => .error "KeyError: gif-file-id"
    | some fid =>
      (blocksForModels rest).map
        (fun bs => Block.image info.name fid "poopie" :: Block.divider :: bs)

/-- The full block list of the posted message: one header block with today's
date, then the per-model blocks. -/
def buildBlocks (today : Int) (modelMap : List (String × ModelInfo)) :
    Except String (List Block) :=
  (blocksForModels modelMap).map (fun bs => Block.header (headerText today) :: bs)

/-- Function `send_slack_message_blocks`: run the upload loop over today's gif files,
then compose and post the block message (the `chat_postMessage` call itself is
external; its content is the returned block list). A raised `KeyError`
short-circuits as `.error`. -/
def send_slack_message_blocks (upload : String → UploadResp) (today : Int)
    (gifs : List String) (modelMap : List (String × ModelInfo)) :
    Except String (List Block) :=
  match uploadLoop upload gifs modelMap with
  | .error e => .error e
  | .ok modelMap2 => buildBlocks today modelMap2

/-! ### read_secrets -/

/-- The characters Python `str.strip()` removes (ASCII whitespace). -/
def isPySpace (c : Char) : Bool :=
  c = ' ' || c = '\t' || c = '\n' || c = '\r' || c = '\x0b' || c = '\x0c'

/-- Python `str.strip()`: drop leading and trailing whitespace. -/
def pyStrip (s : List Char) : List Char :=
  ((s.dropWhile isPySpace).reverse.dropWhile isPySpace).reverse

/-- The guard `item.strip().startswith('#') or item.strip() == ''`: the line
is skipped. -/
def isIgnored (item : String) : Bool :=
  (pyStrip item.data).head? == some '#' || (pyStrip item.data).isEmpty

/-- Python `item.split('=', 1)` restricted to what the caller unpacks: the
parts before and after the first `'='`, or `none` when the separator is
absent (in which case the two-variable unpacking raises `ValueError`). -/
def splitFirst (sep : Char) : List Char → Option (List Char × List Char)
  | [] => none
  | c :: cs =>
    if c = sep then some ([], cs)
    else (splitFirst sep cs).map (fun p => (c :: p.1, p.2))

/-- Python dict assignment `secrets[k] = v` on an insertion-ordered
association list: overwrite the existing entry or append a new one. -/
def upsert : List (String × String) → String → String → List (String × String)
  | [], k, v => [(k, v)]
  | (k0, v0) :: rest, k, v =>
    if k0 = k then (k0, v) :: rest else (k0, v0) :: upsert rest k v

/-- One iteration of the `read_secrets` loop body on line `item`: skip
comments and blanks; otherwise `k, v = item.split('=', 1)` (raising
`ValueError` when there is no `'='`), then `secrets[k] = v.strip()` — the key
is stored verbatim, only the value is stripped. -/
def procLine (acc : List (String × String)) (item : String) :
    Except String (List (String × String)) :=
  if isIgnored item then .ok acc
  else
    match splitFirst '=' item.data with
    | none => .error "ValueError: not enough values to unpack"
    | some (k, v) => .ok (upsert acc ⟨k⟩ ⟨pyStrip v⟩)

/-- The `read_secrets` loop over the remaining lines, carrying the dict built
so far. -/
def readSecretsGo (acc : List (String × String)) :
    List String → Except String (List (String × String))
  | [] => .ok acc
  | item :: rest =>
    match procLine acc item with
    | .error e => .error e
    | .ok acc2 => readSecretsGo acc2 rest

/-- Function `read_secrets(path_obj)`: fold the loop body over the file's lines
(`f.readlines()`, so each line keeps its trailing newline). -/
def read_secrets (lines : List String) : Except String (List (String × String)) :=
  readSecretsGo [] lines

/-- Python dict read `props[key]` on the credential map: the value stored
under exactly that key, if any (`props[key]` raises `KeyError` on `none`). -/
def lookupSecret : List (String × String) → String → Option String
  | [], _ => none
  | (k, v) :: rest, q => if k = q then some v else lookupSecret rest q

/-! ## Theorems -/

theorem windowDays_five (today : Int) :
    windowDays today 5 = [today - 5, today - 4, today - 3, today - 2, today - 1] := by
  simp only [windowDays, pyRangeDown, List.map_cons, List.map_nil]
  norm_num

/-- C2: the date window for `span_days = 5` is the 5 distinct days
`today - 5, ..., today - 1`: most recent yesterday, today excluded — and the
oldest is `today - 5` (4 days before yesterday), not `today - 6` as the claim
has it. -/
theorem C2_window_amended (today : Int) :
    windowDays today 5 = [today - 5, today - 4, today - 3, today - 2, today - 1] ∧
    (windowDays today 5).length = 5 ∧
    (windowDays today 5).Nodup ∧
    today ∉ windowDays today 5 ∧
    (today - 1) ∈ windowDays today 5 ∧
    (∀ d ∈ windowDays today 5, d ≤ today - 1) ∧
    (today - 5) ∈ windowDays today 5 ∧
    (∀ d ∈ windowDays today 5, today - 5 ≤ d) ∧
    (dates_str today 5).length = 5 := by
  have h := windowDays_five today
  refine ⟨h, by rw [h]; rfl, ?_, ?_, ?_, ?_, ?_, ?_, ?_⟩
  · rw [h]; simp
  · rw [h]; simp; omega
  · rw [h]; simp
  · rw [h]; intro d hd; simp at hd; omega
  · rw [h]; simp
  · rw [h]; intro d hd; simp at hd; omega
  · rw [dates_str, List.length_map, h]; rfl

/-- C2, counterexample to the claim as stated: at `today = 19726`
(2024-01-04) the window is `[19721, ..., 19725]`; `today - 6 = 19720` — the
claimed oldest date, "5 days before yesterday" — is not in the window, whose
oldest element is `today - 5`. -/
theorem C2_counterexample :
    windowDays 19726 5 = [19721, 19722, 19723, 19724, 19725] ∧
    (19726 - 6 : Int) ∉ windowDays 19726 5 ∧
    (∀ d ∈ windowDays 19726 5, (19726 - 5 : Int) ≤ d) := by
  refine ⟨by decide, by decide, by decide⟩

/-- C4: for every date string of the window and both run-time markers, the
constructed remote filename is exactly `{d:%Y%m%d}_{t}0000_{model}{ext}`
(with the date rendered zero-padded through `pad4`/`pad2`), the remote URL is
exactly `{BASE_URL}/data/upper/{d:%Y%m%d}/{filename}`, and when the filename
is not cached the pair is queued in `url_dict`. -/
theorem C4_filename_format (model filetype : String) (today : Int) (spanDays : Nat)
    (filenames : List String) (dt : String) (hdt : dt ∈ dates_str today spanDays)
    (tod : String) (htod : tod ∈ runTimes) :
    mkFilename dt tod model filetype = dt ++ "_" ++ tod ++ "0000_" ++ model ++ filetype ∧
    mkUrl dt (mkFilename dt tod model filetype) =
      BASE_URL ++ "/data/upper/" ++ dt ++ "/" ++ mkFilename dt tod model filetype ∧
    (∃ z ∈ windowDays today spanDays,
      dt = pad4 (civilFromDays z).1 ++ pad2 (civilFromDays z).2.1 ++
        pad2 (civilFromDays z).2.2) ∧
    (mkFilename dt tod model filetype ∉ filenames →
      (mkFilename dt tod model filetype, mkUrl dt (mkFilename dt tod model filetype)) ∈
        urlDict model filetype filenames (dates_str today spanDays)) := by
  refine ⟨rfl, rfl, ?_, ?_⟩
  · rw [dates_str] at hdt
    obtain ⟨z, hz, hfmt⟩ := List.mem_map.mp hdt
    exact ⟨z, hz, hfmt.symm⟩
  · intro hmiss
    rw [urlDict]
    refine List.mem_flatMap.mpr ⟨dt, hdt, ?_⟩
    refine List.mem_flatMap.mpr ⟨tod, htod, ?_⟩
    simp only [hmiss, if_false]
    exact List.mem_singleton.mpr rfl

/-- C4, witness at `today = 19726` (window day 2024-01-03), run time "00",
model "M", extension ".png", empty cache. -/
theorem C4_witness :
    "20240103" ∈ dates_str 19726 1 ∧ "00" ∈ runTimes ∧
    (mkFilename "20240103" "00" "M" ".png" =
      "20240103" ++ "_" ++ "00" ++ "0000_" ++ "M" ++ ".png" ∧
    mkUrl "20240103" (mkFilename "20240103" "00" "M" ".png") =
      BASE_URL ++ "/data/upper/" ++ "20240103" ++ "/" ++
        mkFilename "20240103" "00" "M" ".png" ∧
    (∃ z ∈ windowDays 19726 1,
      "20240103" = pad4 (civilFromDays z).1 ++ pad2 (civilFromDays z).2.1 ++
        pad2 (civilFromDays z).2.2) ∧
    (mkFilename "20240103" "00" "M" ".png" ∉ ([] : List String) →
      (mkFilename "20240103" "00" "M" ".png",
        mkUrl "20240103" (mkFilename "20240103" "00" "M" ".png")) ∈
        urlDict "M" ".png" [] (dates_str 19726 1))) :=
  ⟨by decide, by decide,
    C4_filename_format "M" ".png" 19726 1 [] "20240103" (by decide) "00" (by decide)⟩

/-- C8: on an empty (or absent) model cache subdirectory, `next(imgs)` raises
`StopIteration`, which propagates, and no animation artifact is produced. -/
theorem C8_empty_cache (model : String) (today : Int) :
    build_gif [] model today = .error "StopIteration" := rfl

/-- C7: on a non-empty model cache directory the animation holds exactly one
frame per file, the frame sequence being the files in lexical (sorted) path
order. -/
theorem C7_frames (files : List String) (model : String) (today : Int)
    (hne : files ≠ []) :
    ∃ g : GifArtifact, build_gif files model today = .ok g ∧
      g.frames = sortedPaths files ∧
      g.frames.length = files.length ∧
      g.frames.Perm files ∧
      g.frames.Sorted pathLe ∧
      g.path = gifPath model today := by
  have hperm : (sortedPaths files).Perm files := List.perm_insertionSort pathLe files
  have hsorted : (sortedPaths files).Sorted pathLe := List.sorted_insertionSort pathLe files
  rcases hs : sortedPaths files with _ | ⟨f, rest⟩
  · rw [hs] at hperm
    exact absurd hperm.symm.eq_nil hne
  · rw [hs] at hperm hsorted
    refine ⟨⟨gifPath model today, f :: rest, 300, 3⟩, ?_, rfl, hperm.length_eq,
      hperm, hsorted, rfl⟩
    simp only [build_gif, hs]

/-- C7, witness: two unsorted file names; the artifact has two frames in
sorted order. -/
theorem C7_witness :
    (["data/M/b.png", "data/M/a.png"] : List String) ≠ [] ∧
    (∃ g : GifArtifact, build_gif ["data/M/b.png", "data/M/a.png"] "M" 19726 = .ok g ∧
      g.frames = sortedPaths ["data/M/b.png", "data/M/a.png"] ∧
      g.frames.length = (["data/M/b.png", "data/M/a.png"] : List String).length ∧
      g.frames.Perm ["data/M/b.png", "data/M/a.png"] ∧
      g.frames.Sorted pathLe ∧
      g.path = gifPath "M" 19726) :=
  ⟨by decide, C7_frames ["data/M/b.png", "data/M/a.png"] "M" 19726 (by decide)⟩

theorem urlDict_eq_nil (model filetype : String) (filenames datesStr : List String)
    (h : ∀ dt ∈ datesStr, ∀ tod ∈ runTimes,
      mkFilename dt tod model filetype ∈ filenames) :
    urlDict model filetype filenames datesStr = [] := by
  rw [urlDict]
  refine List.flatMap_eq_nil_iff.mpr ?_
  intro dt hdt
  refine List.flatMap_eq_nil_iff.mpr ?_
  intro tod htod
  rw [if_pos (h dt hdt tod htod)]

/-- C1: when every expected remote filename of the window is already present
in the cache scan, re-running the retriever issues zero GET requests, writes
no files and raises no error; and a filename present in the scan is never
queued for download. -/
theorem C1_idempotent (fetch : String → HttpResponse) (cache : List String)
    (model filetype : String) (today : Int) (spanDays : Nat)
    (h : ∀ dt ∈ dates_str today spanDays, ∀ tod ∈ runTimes,
      mkFilename dt tod model filetype ∈ knownFilenames model filetype cache) :
    (retrieve_imgs fetch cache model filetype today spanDays).requests = [] ∧
    (retrieve_imgs fetch cache model filetype today spanDays).writes = [] ∧
    (retrieve_imgs fetch cache model filetype today spanDays).httpError = none ∧
    ∀ fn ∈ knownFilenames model filetype cache,
      fn ∉ (urlDict model filetype (knownFilenames model filetype cache)
        (dates_str today spanDays)).map Prod.fst := by
  have hnil := urlDict_eq_nil model filetype (knownFilenames model filetype cache)
    (dates_str today spanDays) h
  have htr : retrieve_imgs fetch cache model filetype today spanDays = ⟨[], [], none⟩ := by
    rw [retrieve_imgs, hnil]; rfl
  refine ⟨by rw [htr], by rw [htr], by rw [htr], ?_⟩
  intro fn hfn hmem
  obtain ⟨pair, hpair, hfst⟩ := List.mem_map.mp hmem
  rw [urlDict] at hpair
  obtain ⟨dt, _, hp2⟩ := List.mem_flatMap.mp hpair
  obtain ⟨tod, _, hp3⟩ := List.mem_flatMap.mp hp2
  by_cases hc : mkFilename dt tod model filetype ∈ knownFilenames model filetype cache
  · rw [if_pos hc] at hp3
    exact absurd hp3 (List.not_mem_nil pair)
  · rw [if_neg hc, List.mem_singleton] at hp3
    subst hp3
    rw [← hfst] at hfn
    exact hc hfn

/-- C1, witness: a cache already holding both run-time files of the one-day
window; the re-run issues no request and writes nothing. -/
theorem C1_witness :
    (∀ dt ∈ dates_str 19726 1, ∀ tod ∈ runTimes,
      mkFilename dt tod "M" ".png" ∈ knownFilenames "M" ".png"
        ["20240103_000000_M.png", "20240103_120000_M.png"]) ∧
    ((retrieve_imgs (fun _ => ⟨200, []⟩)
        ["20240103_000000_M.png", "20240103_120000_M.png"] "M" ".png" 19726 1).requests = [] ∧
     (retrieve_imgs (fun _ => ⟨200, []⟩)
        ["20240103_000000_M.png", "20240103_120000_M.png"] "M" ".png" 19726 1).writes = [] ∧
     (retrieve_imgs (fun _ => ⟨200, []⟩)
        ["20240103_000000_M.png", "20240103_120000_M.png"] "M" ".png" 19726 1).httpError = none ∧
     ∀ fn ∈ knownFilenames "M" ".png" ["20240103_000000_M.png", "20240103_120000_M.png"],
       fn ∉ (urlDict "M" ".png"
         (knownFilenames "M" ".png" ["20240103_000000_M.png", "20240103_120000_M.png"])
         (dates_str 19726 1)).map Prod.fst) :=
  ⟨by decide, C1_idempotent (fun _ => ⟨200, []⟩)
    ["20240103_000000_M.png", "20240103_120000_M.png"] "M" ".png" 19726 1 (by decide)⟩

theorem cachePath_inj (model : String) {a b : String}
    (h : cachePath model a = cachePath model b) : a = b := by
  have hd := congrArg String.data h
  simp only [cachePath, String.data_append] at hd
  exact String.ext (List.append_cancel_left hd)

theorem runDownloads_ok_cons (fetch : String → HttpResponse) (model fn url : String)
    (rest : List (String × String)) (h1 : (fetch url).statusCode = 200) :
    runDownloads fetch model ((fn, url) :: rest) =
      ⟨url :: (runDownloads fetch model rest).requests,
       (cachePath model fn, (fetch url).content) :: (runDownloads fetch model rest).writes,
       (runDownloads fetch model rest).httpError⟩ := by
  simp [runDownloads, h1]

theorem runDownloads_error_cons (fetch : String → HttpResponse) (model fn url : String)
    (rest : List (String × String)) (h1 : (fetch url).statusCode ≠ 200)
    (h2 : 400 ≤ (fetch url).statusCode) (h3 : (fetch url).statusCode < 600) :
    runDownloads fetch model ((fn, url) :: rest) =
      ⟨[url], [], some (fetch url).statusCode⟩ := by
  simp [runDownloads, h1, h2, h3]

theorem runDownloads_skip_cons (fetch : String → HttpResponse) (model fn url : String)
    (rest : List (String × String)) (h1 : (fetch url).statusCode ≠ 200)
    (h2 : ¬ (400 ≤ (fetch url).statusCode ∧ (fetch url).statusCode < 600)) :
    runDownloads fetch model ((fn, url) :: rest) =
      ⟨url :: (runDownloads fetch model rest).requests,
       (runDownloads fetch model rest).writes,
       (runDownloads fetch model rest).httpError⟩ := by
  simp [runDownloads, h1, h2]

theorem runDownloads_ok_append (fetch : String → HttpResponse) (model : String)
    (pre q : List (String × String))
    (hpre : ∀ p ∈ pre, (fetch p.2).statusCode = 200) :
    runDownloads fetch model (pre ++ q) =
      ⟨pre.map Prod.snd ++ (runDownloads fetch model q).requests,
       pre.map (fun p => (cachePath model p.1, (fetch p.2).content)) ++
         (runDownloads fetch model q).writes,
       (runDownloads fetch model q).httpError⟩ := by
  induction pre with
  | nil => rfl
  | cons a pre ih =>
    cases a with
    | mk fn url =>
      have ha : (fetch url).statusCode = 200 := hpre (fn, url) (List.mem_cons_self _ _)
      have ih' := ih (fun p hp => hpre p (List.mem_cons_of_mem _ hp))
      rw [List.cons_append, runDownloads_ok_cons fetch model fn url (pre ++ q) ha, ih']
      simp

theorem runDownloads_writes_sub (fetch : String → HttpResponse) (model : String)
    (q : List (String × String)) :
    ∀ w ∈ (runDownloads fetch model q).writes, ∃ p ∈ q, w.1 = cachePath model p.1 := by
  induction q with
  | nil => intro w hw; exact absurd hw (List.not_mem_nil w)
  | cons a rest ih =>
    intro w hw
    cases a with
    | mk fn url =>
      by_cases h1 : (fetch url).statusCode = 200
      · rw [runDownloads_ok_cons fetch model fn url rest h1] at hw
        rcases List.mem_cons.mp hw with hw | hw
        · exact ⟨(fn, url), List.mem_cons_self _ _, by rw [hw]⟩
        · obtain ⟨p, hp, hpath⟩ := ih w hw
          exact ⟨p, List.mem_cons_of_mem _ hp, hpath⟩
      · by_cases h2 : 400 ≤ (fetch url).statusCode ∧ (fetch url).statusCode < 600
        · rw [runDownloads_error_cons fetch model fn url rest h1 h2.1 h2.2] at hw
          exact absurd hw (List.not_mem_nil w)
        · rw [runDownloads_skip_cons fetch model fn url rest h1 h2] at hw
          obtain ⟨p, hp, hpath⟩ := ih w hw
          exact ⟨p, List.mem_cons_of_mem _ hp, hpath⟩

/-- C3, counterexample to the claim as stated: a queued download answered
with status 204 (not 200) raises no error — `raise_for_status` only raises
for 4xx/5xx — no file is written for it, but the remaining queue IS fetched:
the second queued url is still requested. -/
theorem C3_counterexample :
    (runDownloads (fun _ => ⟨204, []⟩) "M1" [("f1", "u1"), ("f2", "u2")]).httpError = none ∧
    (runDownloads (fun _ => ⟨204, []⟩) "M1" [("f1", "u1"), ("f2", "u2")]).requests =
      ["u1", "u2"] ∧
    (runDownloads (fun _ => ⟨204, []⟩) "M1" [("f1", "u1"), ("f2", "u2")]).writes = [] := by
  refine ⟨by decide, by decide, by decide⟩

/-- C3, amended: for a queued download whose response status is not 200, no
file is ever written to that filename's cache path; and when the status is
moreover an HTTP error status (in `[400, 600)`, the range
`raise_for_status` raises for), the error is raised and propagated with
exactly the prior queue contents fetched and written — none of the remaining
queued files is fetched (fail-fast). -/
theorem C3_failfast_amended (fetch : String → HttpResponse) (model : String)
    (pre : List (String × String)) (fn url : String) (rest : List (String × String))
    (hpre : ∀ p ∈ pre, (fetch p.2).statusCode = 200)
    (hnot : (fetch url).statusCode ≠ 200)
    (hk1 : fn ∉ pre.map Prod.fst) (hk2 : fn ∉ rest.map Prod.fst) :
    cachePath model fn ∉
      ((runDownloads fetch model (pre ++ (fn, url) :: rest)).writes.map Prod.fst) ∧
    (400 ≤ (fetch url).statusCode → (fetch url).statusCode < 600 →
      (runDownloads fetch model (pre ++ (fn, url) :: rest)).httpError =
        some (fetch url).statusCode ∧
      (runDownloads fetch model (pre ++ (fn, url) :: rest)).requests =
        pre.map Prod.snd ++ [url] ∧
      (runDownloads fetch model (pre ++ (fn, url) :: rest)).writes =
        pre.map (fun p => (cachePath model p.1, (fetch p.2).content))) := by
  have happ := runDownloads_ok_append fetch model pre ((fn, url) :: rest) hpre
  constructor
  · intro hmem
    rw [happ] at hmem
    simp only [List.map_append, List.mem_append] at hmem
    rcases hmem with hmem | hmem
    · obtain ⟨w, hw, hwfst⟩ := List.mem_map.mp hmem
      obtain ⟨p, hp, hpw⟩ := List.mem_map.mp hw
      have hcc : cachePath model p.1 = cachePath model fn := by
        rw [← hpw] at hwfst; exact hwfst
      exact hk1 (List.mem_map.mpr ⟨p, hp, cachePath_inj model hcc⟩)
    · obtain ⟨w, hw, hwfst⟩ := List.mem_map.mp hmem
      by_cases h2 : 400 ≤ (fetch url).statusCode ∧ (fetch url).statusCode < 600
      · rw [runDownloads_error_cons fetch model fn url rest hnot h2.1 h2.2] at hw
        exact absurd hw (List.not_mem_nil w)
      · rw [runDownloads_skip_cons fetch model fn url rest hnot h2] at hw
        obtain ⟨p, hp, hpath⟩ := runDownloads_writes_sub fetch model rest w hw
        have : p.1 = fn := cachePath_inj model (hpath.symm.trans hwfst)
        exact hk2 (List.mem_map.mpr ⟨p, hp, this⟩)
  · intro h2 h3
    rw [happ, runDownloads_error_cons fetch model fn url rest hnot h2 h3]
    refine ⟨rfl, rfl, List.append_nil _⟩

/-- C3, witness: a successful first download, then a 404 on the second of a
three-file queue: the error is raised, the second file is not written, and
the third file is never fetched. -/
theorem C3_witness :
    (∀ p ∈ [(("f0", "u0") : String × String)],
      ((fun u => if u = "u0" then (⟨200, [7]⟩ : HttpResponse) else ⟨404, []⟩) p.2).statusCode
        = 200) ∧
    ((fun u => if u = "u0" then (⟨200, [7]⟩ : HttpResponse) else ⟨404, []⟩) "u1").statusCode
      ≠ 200 ∧
    ("f1" ∉ ([(("f0", "u0") : String × String)]).map Prod.fst) ∧
    ("f1" ∉ ([(("f2", "u2") : String × String)]).map Prod.fst) ∧
    (cachePath "M" "f1" ∉
      ((runDownloads (fun u => if u = "u0" then (⟨200, [7]⟩ : HttpResponse) else ⟨404, []⟩)
        "M" ([("f0", "u0")] ++ ("f1", "u1") :: [("f2", "u2")])).writes.map Prod.fst)) ∧
    (runDownloads (fun u => if u = "u0" then (⟨200, [7]⟩ : HttpResponse) else ⟨404, []⟩)
        "M" ([("f0", "u0")] ++ ("f1", "u1") :: [("f2", "u2")])).httpError = some 404 ∧
    (runDownloads (fun u => if u = "u0" then (⟨200, [7]⟩ : HttpResponse) else ⟨404, []⟩)
        "M" ([("f0", "u0")] ++ ("f1", "u1") :: [("f2", "u2")])).requests = ["u0", "u1"] ∧
    (runDownloads (fun u => if u = "u0" then (⟨200, [7]⟩ : HttpResponse) else ⟨404, []⟩)
        "M" ([("f0", "u0")] ++ ("f1", "u1") :: [("f2", "u2")])).writes =
      [(cachePath "M" "f0", [7])] := by
  have h := C3_failfast_amended
    (fun u => if u = "u0" then (⟨200, [7]⟩ : HttpResponse) else ⟨404, []⟩) "M"
    [("f0", "u0")] "f1" "u1" [("f2", "u2")] (by decide) (by decide) (by decide) (by decide)
  refine ⟨by decide, by decide, by decide, by decide, h.1, ?_, ?_, ?_⟩
  · exact (h.2 (by decide) (by decide)).1
  · exact (h.2 (by decide) (by decide)).2.1
  · exact ((h.2 (by decide) (by decide)).2.2).trans (by decide)

theorem procLine_ignored (acc : List (String × String)) (item : String)
    (h : isIgnored item = true) : procLine acc item = .ok acc := by
  simp [procLine, h]

theorem splitFirst_eq_none (sep : Char) (l : List Char) (h : sep ∉ l) :
    splitFirst sep l = none := by
  induction l with
  | nil => rfl
  | cons c cs ih =>
    have hc : ¬ c = sep := fun e => h (e ▸ List.mem_cons_self c cs)
    simp [splitFirst, hc, ih (fun hm => h (List.mem_cons_of_mem c hm))]

theorem splitFirst_mem_isSome (sep : Char) (l : List Char) (h : sep ∈ l) :
    ∃ pr, splitFirst sep l = some pr := by
  induction l with
  | nil => exact absurd h (List.not_mem_nil sep)
  | cons c cs ih =>
    by_cases hc : c = sep
    · exact ⟨([], cs), by simp [splitFirst, hc]⟩
    · obtain ⟨pr, hpr⟩ := ih (List.mem_of_ne_of_mem (fun e => hc e.symm) h)
      exact ⟨(c :: pr.1, pr.2), by simp [splitFirst, hc, hpr]⟩

theorem splitFirst_append (kc vc : List Char) (hk : '=' ∉ kc) :
    splitFirst '=' (kc ++ '=' :: vc) = some (kc, vc) := by
  induction kc with
  | nil => simp [splitFirst]
  | cons c cs ih =>
    have hc : ¬ c = '=' := fun e => hk (e ▸ List.mem_cons_self c cs)
    simp [splitFirst, hc, ih (fun hm => hk (List.mem_cons_of_mem c hm))]

theorem procLine_ok (acc : List (String × String)) (p : String)
    (h : isIgnored p = true ∨ '=' ∈ p.data) :
    ∃ acc2, procLine acc p = .ok acc2 := by
  by_cases hig : isIgnored p
  · exact ⟨acc, procLine_ignored acc p hig⟩
  · rcases h with h | h
    · exact absurd h hig
    · obtain ⟨⟨k, v⟩, hpr⟩ := splitFirst_mem_isSome '=' p.data h
      exact ⟨upsert acc ⟨k⟩ ⟨pyStrip v⟩, by simp [procLine, hig, hpr]⟩

theorem readSecretsGo_append (xs ys : List String) :
    ∀ acc, readSecretsGo acc (xs ++ ys) =
      (readSecretsGo acc xs).bind (fun a => readSecretsGo a ys) := by
  induction xs with
  | nil => intro acc; rfl
  | cons x xs ih =>
    intro acc
    rw [List.cons_append]
    cases hp : procLine acc x with
    | error e => simp [readSecretsGo, hp, Except.bind]
    | ok acc2 => simp [readSecretsGo, hp, ih acc2]

theorem readSecretsGo_ok (xs : List String) :
    ∀ acc, (∀ p ∈ xs, isIgnored p = true ∨ '=' ∈ p.data) →
      ∃ acc2, readSecretsGo acc xs = .ok acc2 := by
  induction xs with
  | nil => intro acc _; exact ⟨acc, rfl⟩
  | cons x xs ih =>
    intro acc hx
    obtain ⟨acc2, h2⟩ := procLine_ok acc x (hx x (List.mem_cons_self _ _))
    obtain ⟨acc3, h3⟩ := ih acc2 (fun p hp => hx p (List.mem_cons_of_mem _ hp))
    exact ⟨acc3, by simp [readSecretsGo, h2, h3]⟩

/-- C6: in `read_secrets`, a line whose stripped form starts with `#` or is
empty is ignored (removing it does not change the result), while any other
line lacking a `=` separator makes the parse raise
`ValueError` (here: return the parse error), provided the preceding lines
parse. -/
theorem C6_config_lines :
    (∀ (pre post : List String) (item : String), isIgnored item = true →
      read_secrets (pre ++ item :: post) = read_secrets (pre ++ post)) ∧
    (∀ (pre post : List String) (item : String), isIgnored item = false →
      '=' ∉ item.data →
      (∀ p ∈ pre, isIgnored p = true ∨ '=' ∈ p.data) →
      read_secrets (pre ++ item :: post) =
        .error "ValueError: not enough values to unpack") := by
  constructor
  · intro pre post item hig
    rw [read_secrets, read_secrets, readSecretsGo_append, readSecretsGo_append]
    cases hpre : readSecretsGo [] pre with
    | error e => rfl
    | ok a => simp [Except.bind, readSecretsGo, procLine_ignored a item hig]
  · intro pre post item hig hnoeq hpre
    rw [read_secrets, readSecretsGo_append]
    obtain ⟨acc2, hacc⟩ := readSecretsGo_ok pre [] hpre
    rw [hacc]
    have hsplit := splitFirst_eq_none '=' item.data hnoeq
    simp [Except.bind, readSecretsGo, procLine, hig, hsplit]

/-- C6, witness: a comment line is dropped without effect; a separator-less
line after two good lines yields the parse error. -/
theorem C6_witness :
    read_secrets ["a=1\n", "# note\n", "b=2\n"] = read_secrets ["a=1\n", "b=2\n"] ∧
    read_secrets ["a=1\n", "oops\n", "b=2\n"] =
      .error "ValueError: not enough values to unpack" :=
  ⟨C6_config_lines.1 ["a=1\n"] ["b=2\n"] "# note\n" (by decide),
   C6_config_lines.2 ["a=1\n"] ["b=2\n"] "oops\n" (by decide) (by decide) (by decide)⟩

/-- C10: a parsed `key=value` line stores the key verbatim (all characters
before the first `=`, whitespace included) while the value is stripped; so
later lookups only match the exactly-written key. -/
theorem C10_key_verbatim (kc vc : List Char) (hk : '=' ∉ kc)
    (hig : isIgnored ⟨kc ++ '=' :: vc⟩ = false) :
    read_secrets [⟨kc ++ '=' :: vc⟩] = .ok [(⟨kc⟩, ⟨pyStrip vc⟩)] := by
  have hsp : splitFirst '=' (String.data ⟨kc ++ '=' :: vc⟩) = some (kc, vc) :=
    splitFirst_append kc vc hk
  simp [read_secrets, readSecretsGo, procLine, hig, hsp, upsert]

/-- C10, witness: the line `' bot-token =x\n'` stores key `' bot-token '`
(whitespace kept) with stripped value `'x'`; `props['bot-token']` misses,
only the exactly-written key matches. -/
theorem C10_witness :
    read_secrets [⟨" bot-token ".data ++ '=' :: "x\n".data⟩] =
      .ok [(⟨" bot-token ".data⟩, ⟨pyStrip "x\n".data⟩)] ∧
    (⟨" bot-token ".data ++ '=' :: "x\n".data⟩ : String) = " bot-token =x\n" ∧
    (⟨" bot-token ".data⟩ : String) = " bot-token " ∧
    (⟨pyStrip "x\n".data⟩ : String) = "x" ∧
    lookupSecret [(" bot-token ", "x")] "bot-token" = none ∧
    lookupSecret [(" bot-token ", "x")] " bot-token " = some "x" :=
  ⟨C10_key_verbatim " bot-token ".data "x\n".data (by decide) (by decide),
   by decide, by decide, by decide, by decide, by decide⟩

theorem lookupKey_setFileId_ne (mm : List (String × ModelInfo)) (k fid m : String)
    (h : k ≠ m) : lookupKey (setFileId mm k fid) m = lookupKey mm m := by
  induction mm with
  | nil => rfl
  | cons a mm ih =>
    cases a with
    | mk k0 info =>
      by_cases hk : k0 = k
      · subst hk
        simp [setFileId, lookupKey, h]
      · by_cases hm : k0 = m
        · subst hm
          have hmk : ¬ (k0 = k) := hk
          simp [setFileId, lookupKey, hmk]
        · simp [setFileId, lookupKey, hk, hm, ih]

theorem lookupKey_setFileId_self (mm : List (String × ModelInfo)) (k fid : String) :
    lookupKey (setFileId mm k fid) k =
      (lookupKey mm k).map (fun i => ⟨i.name, i.filetype, some fid⟩) := by
  induction mm with
  | nil => rfl
  | cons a mm ih =>
    cases a with
    | mk k0 info =>
      by_cases hk : k0 = k
      · simp [setFileId, lookupKey, hk]
      · simp [setFileId, lookupKey, hk, ih]

theorem lookupKey_setFileId_isSome (mm : List (String × ModelInfo)) (k fid q : String) :
    (lookupKey (setFileId mm k fid) q).isSome = (lookupKey mm q).isSome := by
  by_cases h : k = q
  · subst h
    rw [lookupKey_setFileId_self]
    cases lookupKey mm k <;> rfl
  · rw [lookupKey_setFileId_ne mm k fid q h]

theorem lookupKey_mem (mm : List (String × ModelInfo)) (m : String) (info : ModelInfo)
    (h : lookupKey mm m = some info) : (m, info) ∈ mm := by
  induction mm with
  | nil => simp [lookupKey] at h
  | cons a mm ih =>
    cases a with
    | mk k0 i0 =>
      by_cases hk : k0 = m
      · rw [lookupKey, if_pos hk] at h
        injection h with h
        subst hk; subst h
        exact List.mem_cons_self _ _
      · rw [lookupKey, if_neg hk] at h
        exact List.mem_cons_of_mem _ (ih h)

theorem blocksForModels_error (mm : List (String × ModelInfo))
    (h : ∃ p ∈ mm, p.2.gifFileId = none) :
    blocksForModels mm = .error "KeyError: gif-file-id" := by
  induction mm with
  | nil =>
    obtain ⟨p, hp, _⟩ := h
    exact absurd hp (List.not_mem_nil p)
  | cons a mm ih =>
    cases a with
    | mk k info =>
      cases hg : info.gifFileId with
      | none => simp [blocksForModels, hg]
      | some fid =>
        obtain ⟨p, hp, hpn⟩ := h
        rcases List.mem_cons.mp hp with rfl | hp2
        · rw [hg] at hpn
          exact absurd hpn (Option.some_ne_none fid)
        · simp [blocksForModels, hg, ih ⟨p, hp2, hpn⟩, Except.map]

theorem blocksForModels_ok (mm : List (String × ModelInfo))
    (h : ∀ p ∈ mm, (p.2.gifFileId).isSome = true) :
    blocksForModels mm = .ok (mm.flatMap (fun p =>
      [Block.image p.2.name ((p.2.gifFileId).getD "") "poopie", Block.divider])) := by
  induction mm with
  | nil => rfl
  | cons a mm ih =>
    cases a with
    | mk k info =>
      have ha := h (k, info) (List.mem_cons_self _ _)
      obtain ⟨fid, hfid⟩ := Option.isSome_iff_exists.mp ha
      have hfid2 : info.gifFileId = some fid := hfid
      have ih' := ih (fun p hp => h p (List.mem_cons_of_mem _ hp))
      simp [blocksForModels, hfid2, ih', List.flatMap_cons, Except.map]

theorem uploadLoop_ok (upload : String → UploadResp) (m : String) (info : ModelInfo)
    (gifs : List String) :
    ∀ mm : List (String × ModelInfo),
      (∀ g ∈ gifs, (upload g).ok = true →
        (lookupKey mm (mnameOfGif g)).isSome = true) →
      (∀ g ∈ gifs, mnameOfGif g = m → (upload g).ok = false) →
      lookupKey mm m = some info →
      ∃ mm2, uploadLoop upload gifs mm = .ok mm2 ∧ lookupKey mm2 m = some info := by
  induction gifs with
  | nil => intro mm _ _ hm; exact ⟨mm, rfl, hm⟩
  | cons g gifs ih =>
    intro mm hok hfail hm
    cases hresp : (upload g).ok with
    | false =>
      obtain ⟨mm2, h1, h2⟩ := ih mm
        (fun g' hg' => hok g' (List.mem_cons_of_mem _ hg'))
        (fun g' hg' => hfail g' (List.mem_cons_of_mem _ hg')) hm
      exact ⟨mm2, by simp [uploadLoop, hresp, h1], h2⟩
    | true =>
      have hsome := hok g (List.mem_cons_self _ _) hresp
      obtain ⟨j, hj⟩ := Option.isSome_iff_exists.mp hsome
      have hne : mnameOfGif g ≠ m := by
        intro he
        have hc := hfail g (List.mem_cons_self _ _) he
        rw [hresp] at hc
        exact Bool.noConfusion hc
      have hok' : ∀ g' ∈ gifs, (upload g').ok = true →
          (lookupKey (setFileId mm (mnameOfGif g) (upload g).fileId)
            (mnameOfGif g')).isSome = true := by
        intro g' hg' ho
        rw [lookupKey_setFileId_isSome]
        exact hok g' (List.mem_cons_of_mem _ hg') ho
      have hm' : lookupKey (setFileId mm (mnameOfGif g) (upload g).fileId) m =
          some info := by
        rw [lookupKey_setFileId_ne _ _ _ _ hne]
        exact hm
      obtain ⟨mm2, h1, h2⟩ := ih (setFileId mm (mnameOfGif g) (upload g).fileId)
        hok' (fun g' hg' => hfail g' (List.mem_cons_of_mem _ hg')) hm'
      exact ⟨mm2, by simp [uploadLoop, hresp, hj, h1], h2⟩

/-- C5: when every upload of gifs owned by model `m` fails (non-ok response)
while the uploads that do succeed belong to models present in the map, the
loop finishes (continuing past the failures), `m`'s entry never receives a
file id, and the subsequent message composition raises the missing-key error
for `'gif-file-id'`, which propagates out of `send_slack_message_blocks`. -/
theorem C5_upload_failure (upload : String → UploadResp) (gifs : List String)
    (modelMap : List (String × ModelInfo)) (m : String) (today : Int) (info : ModelInfo)
    (hok : ∀ g ∈ gifs, (upload g).ok = true →
      (lookupKey modelMap (mnameOfGif g)).isSome = true)
    (hfail : ∀ g ∈ gifs, mnameOfGif g = m → (upload g).ok = false)
    (hm : lookupKey modelMap m = some info) (hnone : info.gifFileId = none) :
    ∃ mm2, uploadLoop upload gifs modelMap = .ok mm2 ∧
      lookupKey mm2 m = some info ∧
      buildBlocks today mm2 = .error "KeyError: gif-file-id" ∧
      send_slack_message_blocks upload today gifs modelMap =
        .error "KeyError: gif-file-id" := by
  obtain ⟨mm2, h1, h2⟩ := uploadLoop_ok upload m info gifs modelMap hok hfail hm
  have hmem := lookupKey_mem mm2 m info h2
  have hblocks : blocksForModels mm2 = .error "KeyError: gif-file-id" :=
    blocksForModels_error mm2 ⟨(m, info), hmem, hnone⟩
  have hbuild : buildBlocks today mm2 = .error "KeyError: gif-file-id" := by
    rw [buildBlocks, hblocks]; rfl
  refine ⟨mm2, h1, h2, hbuild, ?_⟩
  rw [send_slack_message_blocks, h1]
  exact hbuild

/-- C5, witness: two models, the Skew-T upload fails; the loop still returns,
the KFWD entry has no file id, and composing the message errors. -/
theorem C5_witness :
    (∀ g ∈ ["upaCNTR_200_2024-01-04.gif", "KFWD_2024-01-04.gif"],
      ((fun g2 => if g2 = "upaCNTR_200_2024-01-04.gif" then
        (⟨true, "F001"⟩ : UploadResp) else ⟨false, ""⟩) g).ok = true →
      (lookupKey [("upaCNTR_200", ⟨"Winds @ 200mb", ".gif", none⟩),
        ("KFWD", ⟨"Skew-T/Log-P", ".png", none⟩)] (mnameOfGif g)).isSome = true) ∧
    (∀ g ∈ ["upaCNTR_200_2024-01-04.gif", "KFWD_2024-01-04.gif"],
      mnameOfGif g = "KFWD" →
      ((fun g2 => if g2 = "upaCNTR_200_2024-01-04.gif" then
        (⟨true, "F001"⟩ : UploadResp) else ⟨false, ""⟩) g).ok = false) ∧
    (∃ mm2, uploadLoop (fun g2 => if g2 = "upaCNTR_200_2024-01-04.gif" then
        (⟨true, "F001"⟩ : UploadResp) else ⟨false, ""⟩)
        ["upaCNTR_200_2024-01-04.gif", "KFWD_2024-01-04.gif"]
        [("upaCNTR_200", ⟨"Winds @ 200mb", ".gif", none⟩),
         ("KFWD", ⟨"Skew-T/Log-P", ".png", none⟩)] = .ok mm2 ∧
      lookupKey mm2 "KFWD" = some ⟨"Skew-T/Log-P", ".png", none⟩ ∧
      buildBlocks 19726 mm2 = .error "KeyError: gif-file-id" ∧
      send_slack_message_blocks (fun g2 => if g2 = "upaCNTR_200_2024-01-04.gif" then
        (⟨true, "F001"⟩ : UploadResp) else ⟨false, ""⟩) 19726
        ["upaCNTR_200_2024-01-04.gif", "KFWD_2024-01-04.gif"]
        [("upaCNTR_200", ⟨"Winds @ 200mb", ".gif", none⟩),
         ("KFWD", ⟨"Skew-T/Log-P", ".png", none⟩)] = .error "KeyError: gif-file-id") :=
  ⟨by decide, by decide,
   C5_upload_failure (fun g2 => if g2 = "upaCNTR_200_2024-01-04.gif" then
      (⟨true, "F001"⟩ : UploadResp) else ⟨false, ""⟩)
    ["upaCNTR_200_2024-01-04.gif", "KFWD_2024-01-04.gif"]
    [("upaCNTR_200", ⟨"Winds @ 200mb", ".gif", none⟩),
     ("KFWD", ⟨"Skew-T/Log-P", ".png", none⟩)]
    "KFWD" 19726 ⟨"Skew-T/Log-P", ".png", none⟩
    (by decide) (by decide) (by decide) (by decide)⟩

/-- C9: when every model of the map has an uploaded file id, the composed
message is exactly one header block with today's date followed, per model in
map order, by one image block referencing that model's file id and one
divider — `1 + 2 * n` blocks in total. -/
theorem C9_message_blocks (today : Int) (modelMap : List (String × ModelInfo))
    (h : ∀ p ∈ modelMap, (p.2.gifFileId).isSome = true) :
    buildBlocks today modelMap = .ok (Block.header (headerText today) ::
      modelMap.flatMap (fun p =>
        [Block.image p.2.name ((p.2.gifFileId).getD "") "poopie", Block.divider])) ∧
    ∀ bs, buildBlocks today modelMap = .ok bs →
      bs.length = 1 + 2 * modelMap.length := by
  have hb := blocksForModels_ok modelMap h
  have hlen : ∀ mm : List (String × ModelInfo), (mm.flatMap (fun p =>
      [Block.image p.2.name ((p.2.gifFileId).getD "") "poopie",
        Block.divider])).length = 2 * mm.length := by
    intro mm
    induction mm with
    | nil => rfl
    | cons a mm ih =>
      simp [List.flatMap_cons, ih]
      ring
  have hmain : buildBlocks today modelMap = .ok (Block.header (headerText today) ::
      modelMap.flatMap (fun p =>
        [Block.image p.2.name ((p.2.gifFileId).getD "") "poopie", Block.divider])) := by
    rw [buildBlocks, hb]; rfl
  refine ⟨hmain, ?_⟩
  intro bs hbs
  rw [hmain] at hbs
  injection hbs with hbs
  rw [← hbs, List.length_cons, hlen modelMap]
  omega

/-- C9, witness: two models with ids `F001`, `F002` give five blocks —
header, image, divider, image, divider. -/
theorem C9_witness :
    (∀ p ∈ [(("upaCNTR_200" : String), (⟨"Winds @ 200mb", ".gif", some "F001"⟩ : ModelInfo)),
        ("KFWD", ⟨"Skew-T/Log-P", ".png", some "F002"⟩)],
      (p.2.gifFileId).isSome = true) ∧
    buildBlocks 19726
      [("upaCNTR_200", ⟨"Winds @ 200mb", ".gif", some "F001"⟩),
       ("KFWD", ⟨"Skew-T/Log-P", ".png", some "F002"⟩)] =
      .ok (Block.header (headerText 19726) ::
        ([(("upaCNTR_200" : String), (⟨"Winds @ 200mb", ".gif", some "F001"⟩ : ModelInfo)),
          ("KFWD", ⟨"Skew-T/Log-P", ".png", some "F002"⟩)]).flatMap (fun p =>
          [Block.image p.2.name ((p.2.gifFileId).getD "") "poopie", Block.divider])) ∧
    ∀ bs, buildBlocks 19726
      [("upaCNTR_200", ⟨"Winds @ 200mb", ".gif", some "F001"⟩),
       ("KFWD", ⟨"Skew-T/Log-P", ".png", some "F002"⟩)] = .ok bs →
      bs.length = 1 + 2 * ([(("upaCNTR_200" : String),
        (⟨"Winds @ 200mb", ".gif", some "F001"⟩ : ModelInfo)),
        ("KFWD", ⟨"Skew-T/Log-P", ".png", some "F002"⟩)] :
          List (String × ModelInfo)).length :=
  ⟨by decide,
   (C9_message_blocks 19726
     [("upaCNTR_200", ⟨"Winds @ 200mb", ".gif", some "F001"⟩),
      ("KFWD", ⟨"Skew-T/Log-P", ".png", some "F002"⟩)] (by decide)).1,
   (C9_message_blocks 19726
     [("upaCNTR_200", ⟨"Winds @ 200mb", ".gif", some "F001"⟩),
      ("KFWD", ⟨"Skew-T/Log-P", ".png", some "F002"⟩)] (by decide)).2⟩

end DailyWx
